import Mathlib

/-
Verification of the flag-color extraction pipeline
(`scripts/extract-flag-colors.js` of the geogrid-trainer repository).

The pipeline is embedded shallowly:
* JS strings are Lean `String`s / `List Char`;
* JS numbers are `Int` (all reachable arithmetic is exact integer
  arithmetic; the two uses of non-integer arithmetic in the source are
  `Math.sqrt` inside `colorDistance` and the division by `2.55` inside
  `getLightness`, both of which are order-isomorphic re-scalings:
  we embed the square of the distance and the lightness scaled by 2550,
  which preserves every comparison the source performs);
* the regular-expression scans of the source are embedded as explicit
  character-list scanners with the same matching semantics
  (case-insensitive literal matching, greedy character classes,
  left-to-right non-overlapping global matching that advances one
  character after a failed match attempt);
* `fs` access of the batch driver is embedded as an association list
  from file names to `Option` contents, `none` marking an unreadable
  file, and the driver returns `Except` mirroring an uncaught exception.
-/

namespace GeoGrid

/-- RGB triple as produced by the color parsers.  Channels are `Int`
because the source never range-checks parsed channel values. -/
structure RGB where
  r : Int
  g : Int
  b : Int
deriving DecidableEq

/-- The 12 accepted colors with their reference anchors, in the fixed
table order of the source (`ACCEPTED_COLORS` object, insertion order). -/
def ACCEPTED_COLORS : List (String × RGB) :=
  [("black", ⟨0, 0, 0⟩),
   ("white", ⟨255, 255, 255⟩),
   ("grey", ⟨128, 128, 128⟩),
   ("pink", ⟨255, 105, 180⟩),
   ("red", ⟨200, 30, 30⟩),
   ("orange", ⟨255, 140, 0⟩),
   ("yellow", ⟨255, 215, 0⟩),
   ("green", ⟨0, 128, 0⟩),
   ("blue", ⟨0, 50, 160⟩),
   ("light blue", ⟨100, 180, 230⟩),
   ("purple", ⟨128, 0, 128⟩),
   ("brown", ⟨139, 90, 43⟩)]

/-- The twelve canonical color names, in palette order. -/
def paletteNames : List String := ACCEPTED_COLORS.map Prod.fst

/-- Named CSS colors of the source (`NAMED_COLORS`); `none` and
`transparent` map to a null RGB, modelled by `Option.none` values. -/
def NAMED_COLORS : List (String × Option RGB) :=
  [("black", some ⟨0, 0, 0⟩),
   ("white", some ⟨255, 255, 255⟩),
   ("red", some ⟨255, 0, 0⟩),
   ("green", some ⟨0, 128, 0⟩),
   ("blue", some ⟨0, 0, 255⟩),
   ("yellow", some ⟨255, 255, 0⟩),
   ("orange", some ⟨255, 165, 0⟩),
   ("purple", some ⟨128, 0, 128⟩),
   ("pink", some ⟨255, 192, 203⟩),
   ("brown", some ⟨165, 42, 42⟩),
   ("gold", some ⟨255, 215, 0⟩),
   ("silver", some ⟨192, 192, 192⟩),
   ("gray", some ⟨128, 128, 128⟩),
   ("grey", some ⟨128, 128, 128⟩),
   ("navy", some ⟨0, 0, 128⟩),
   ("maroon", some ⟨128, 0, 0⟩),
   ("olive", some ⟨128, 128, 0⟩),
   ("teal", some ⟨0, 128, 128⟩),
   ("aqua", some ⟨0, 255, 255⟩),
   ("cyan", some ⟨0, 255, 255⟩),
   ("lime", some ⟨0, 255, 0⟩),
   ("fuchsia", some ⟨255, 0, 255⟩),
   ("magenta", some ⟨255, 0, 255⟩),
   ("crimson", some ⟨220, 20, 60⟩),
   ("darkred", some ⟨139, 0, 0⟩),
   ("darkgreen", some ⟨0, 100, 0⟩),
   ("darkblue", some ⟨0, 0, 139⟩),
   ("lightblue", some ⟨173, 216, 230⟩),
   ("skyblue", some ⟨135, 206, 235⟩),
   ("royalblue", some ⟨65, 105, 225⟩),
   ("forestgreen", some ⟨34, 139, 34⟩),
   ("seagreen", some ⟨46, 139, 87⟩),
   ("turquoise", some ⟨64, 224, 208⟩),
   ("coral", some ⟨255, 127, 80⟩),
   ("salmon", some ⟨250, 128, 114⟩),
   ("khaki", some ⟨240, 230, 140⟩),
   ("tan", some ⟨210, 180, 140⟩),
   ("sienna", some ⟨160, 82, 45⟩),
   ("chocolate", some ⟨210, 105, 30⟩),
   ("saddlebrown", some ⟨139, 69, 19⟩),
   ("peru", some ⟨205, 133, 63⟩),
   ("wheat", some ⟨245, 222, 179⟩),
   ("beige", some ⟨245, 245, 220⟩),
   ("ivory", some ⟨255, 255, 240⟩),
   ("snow", some ⟨255, 250, 250⟩),
   ("none", none),
   ("transparent", none)]

/-- Square of the Euclidean distance between two RGB colors.  The
source's `colorDistance` returns `Math.sqrt` of this quantity; `sqrt`
is strictly monotone on nonnegative reals, so every comparison the
source makes between distances coincides with the comparison of these
squares (for distinct integer squares in the reachable range the
correctly rounded double square roots are distinct as well). -/
def colorDistSq (c1 c2 : RGB) : Int :=
  (c1.r - c2.r) * (c1.r - c2.r) + (c1.g - c2.g) * (c1.g - c2.g) +
    (c1.b - c2.b) * (c1.b - c2.b)

/-- Perceptual lightness of the source (`getLightness`), scaled by 2550
to stay in `Int`: the source computes `(0.299 r + 0.587 g + 0.114 b) / 2.55`,
which equals `(299 r + 587 g + 114 b) / 2550` exactly; this embedding
returns the numerator, i.e. lightness times 2550.  All comparisons the
source performs on lightness values (sorting, `> 20` on a difference,
`> 45` and spec-level `> 100`) are scaled by the positive constant 2550
accordingly (`51000`, `114750`, `255000`). -/
def getLightness2550 (rgb : RGB) : Int :=
  299 * rgb.r + 587 * rgb.g + 114 * rgb.b

/-- Blue-ish heuristic of the source (`isBlueish`). -/
def isBlueish (rgb : RGB) : Bool :=
  rgb.b > rgb.r && rgb.b > rgb.g && rgb.b > 50

/-- One step of the source's nearest-color loop: the accumulator is
`none` before the first iteration (`minDist = Infinity`), and the
update uses the strict comparison `dist < minDist`. -/
def closestStep (rgb : RGB) (acc : Option (String × Int)) (p : String × RGB) :
    Option (String × Int) :=
  match acc with
  | none => some (p.1, colorDistSq rgb p.2)
  | some (best, d) =>
      if colorDistSq rgb p.2 < d then some (p.1, colorDistSq rgb p.2)
      else some (best, d)

/-- Nearest accepted color (`findClosestColor`): folds the palette in
table order, keeping the first strict improvement. -/
def findClosestColor (rgb : RGB) : Option String :=
  (ACCEPTED_COLORS.foldl (closestStep rgb) none).map Prod.fst

/-- Stable insertion into a sorted list: the new element goes before
the first element it compares `le` to, hence before equal elements
coming from later positions of the original list. -/
def insertLe {α : Type} (le : α → α → Bool) (x : α) : List α → List α
  | [] => [x]
  | y :: ys => if le x y then x :: y :: ys else y :: insertLe le x ys

/-- Stable sort by a boolean comparator.  JS `Array.prototype.sort` is
required to be stable, and every stable sort with respect to a total
comparator produces the same list, so insertion sort is an exact model
of the source's sorts (which all use total comparators). -/
def stableSort {α : Type} (le : α → α → Bool) : List α → List α
  | [] => []
  | x :: xs => insertLe le x (stableSort le xs)

/-- The `bluesWithLightness` list of the source, sorted by lightness
(`sort((a, b) => a.lightness - b.lightness)`). -/
def sortedBlues (rawBlues : List RGB) : List (RGB × Int) :=
  stableSort (fun a b => decide (a.2 ≤ b.2))
    (rawBlues.map (fun rgb => (rgb, getLightness2550 rgb)))

/-- Blue exception rule (`applyBlueException`).  The source sorts the
raw blue-ish triples by lightness and compares the extremes (index `0`
and index `length - 1`); lightness is embedded scaled by 2550, so the
thresholds `20` and `45` become `51000` and `114750`. -/
def applyBlueException (colors : List String) (rawBlues : List RGB) : List String :=
  if "blue" ∉ colors ∨ rawBlues.length < 2 then colors
  else
    match (sortedBlues rawBlues).head?, (sortedBlues rawBlues).getLast? with
    | some darkest, some lightest =>
        if 51000 < lightest.2 - darkest.2 ∧ "light blue" ∉ colors then
          if 114750 < lightest.2 then colors ++ ["light blue"] else colors
        else colors
    | _, _ => colors

/-
Character utilities mirroring the JavaScript string primitives used by
the source.  Character classes are expressed through `Char.toNat` code
points; all reachable inputs are ASCII.
-/

/-- JS `\s` restricted to ASCII (space, tab, newline, carriage return,
vertical tab, form feed); the Unicode spaces JS also accepts cannot
occur in the repository's inputs. -/
def jsIsSpace (c : Char) : Bool :=
  c.toNat = 32 || c.toNat = 9 || c.toNat = 10 || c.toNat = 13 ||
    c.toNat = 11 || c.toNat = 12

/-- JS `\w` word-character class, used for `\b` boundaries. -/
def isWordChar (c : Char) : Bool :=
  (48 ≤ c.toNat && c.toNat ≤ 57) || (65 ≤ c.toNat && c.toNat ≤ 90) ||
    (97 ≤ c.toNat && c.toNat ≤ 122) || c.toNat = 95

/-- ASCII lower-casing, the effect of JS `toLowerCase` on the inputs. -/
def jsToLower (c : Char) : Char :=
  if 65 ≤ c.toNat ∧ c.toNat ≤ 90 then Char.ofNat (c.toNat + 32) else c

/-- ASCII upper-casing, the effect of JS `toUpperCase` on the inputs. -/
def jsToUpper (c : Char) : Char :=
  if 97 ≤ c.toNat ∧ c.toNat ≤ 122 then Char.ofNat (c.toNat - 32) else c

/-- JS `trim`. -/
def jsTrim (cs : List Char) : List Char :=
  ((cs.dropWhile jsIsSpace).reverse.dropWhile jsIsSpace).reverse

/-- Match a literal pattern (given lower-case) case-insensitively at the
head of the input, returning the rest on success. -/
def matchCI : List Char → List Char → Option (List Char)
  | [], cs => some cs
  | _ :: _, [] => none
  | p :: ps, c :: cs => if jsToLower c = p then matchCI ps cs else none

/-- Prefix test on character lists. -/
def startsWithList : List Char → List Char → Bool
  | [], _ => true
  | _ :: _, [] => false
  | p :: ps, c :: cs => p = c && startsWithList ps cs

/-- Substring test (JS `includes`, case-sensitive). -/
def hasSubstr (pat : List Char) : List Char → Bool
  | [] => startsWithList pat []
  | c :: cs => startsWithList pat (c :: cs) || hasSubstr pat cs

/-- Suffix test (JS `endsWith`). -/
def endsWithList (pat cs : List Char) : Bool :=
  startsWithList pat.reverse cs.reverse

/-
Color parsing (`parseHex`, `parseRgb`, `parseColor`).
-/

/-- Value of a hexadecimal digit character, if any. -/
def charHexVal? (c : Char) : Option Nat :=
  if 48 ≤ c.toNat ∧ c.toNat ≤ 57 then some (c.toNat - 48)
  else if 97 ≤ c.toNat ∧ c.toNat ≤ 102 then some (c.toNat - 87)
  else if 65 ≤ c.toNat ∧ c.toNat ≤ 70 then some (c.toNat - 55)
  else none

/-- JS `parseInt(s, 16)`: skip whitespace, optional sign, optional
`0x`/`0X` prefix, then the maximal run of hex digits; `none` models
`NaN` when no digit is found. -/
def jsParseIntHex (cs : List Char) : Option Int :=
  let t := cs.dropWhile jsIsSpace
  let sign : Int := match t with
    | c :: _ => if c.toNat = 45 then -1 else 1
    | [] => 1
  let t1 := match t with
    | c :: r => if c.toNat = 45 ∨ c.toNat = 43 then r else t
    | [] => t
  let t2 := match t1 with
    | z :: x :: r => if z.toNat = 48 ∧ (x.toNat = 120 ∨ x.toNat = 88) then r else t1
    | _ => t1
  let ds := t2.takeWhile (fun c => (charHexVal? c).isSome)
  if ds.isEmpty then none
  else some (sign * ds.foldl (fun (a : Int) c => a * 16 + ((charHexVal? c).getD 0 : Nat)) 0)

/-- JS `substring(i, j)` on a character list (clamping, `i ≤ j` uses). -/
def sublist (cs : List Char) (i j : Nat) : List Char :=
  (cs.drop i).take (j - i)

/-- Doubling of the first three digits, used by the source for 3- and
4-digit hex forms (`hex[0]+hex[0]+hex[1]+hex[1]+hex[2]+hex[2]`; a 4th
alpha digit is dropped). -/
def expand3 (h : List Char) : List Char :=
  match h with
  | a :: b :: c :: _ => [a, a, b, b, c, c]
  | _ => h

/-- JS `replace('#', '')`: removes the first occurrence only. -/
def removeFirstChar (t : Char) : List Char → List Char
  | [] => []
  | c :: cs => if c = t then cs else c :: removeFirstChar t cs

/-- Hex color parser (`parseHex`). -/
def parseHex (cs0 : List Char) : Option RGB :=
  let h0 := removeFirstChar '#' cs0
  let h1 := if h0.length = 3 then expand3 h0 else h0
  let h2 := if h1.length = 4 then expand3 h1 else h1
  let h3 := if h2.length = 8 then h2.take 6 else h2
  match jsParseIntHex (sublist h3 0 2), jsParseIntHex (sublist h3 2 4),
      jsParseIntHex (sublist h3 4 6) with
  | some r, some g, some b => some ⟨r, g, b⟩
  | _, _, _ => none

/-- Decimal value of a digit run (the `rgb()` captures are pure digit
runs `\d+`, on which JS `parseInt(s, 10)` is this fold). -/
def digitsToInt (ds : List Char) : Int :=
  ds.foldl (fun (a : Int) c => a * 10 + ((c.toNat : Int) - 48)) 0

/-- Tail of the `rgb()` regex after the optional `a`:
`\s*\(\s*(\d+)\s*,\s*(\d+)\s*,\s*(\d+)`. -/
def rgbTriple (cs : List Char) : Option RGB :=
  let r0 := cs.dropWhile jsIsSpace
  match r0 with
  | [] => none
  | c :: r1 =>
    if c.toNat = 40 then
      let s1 := r1.dropWhile jsIsSpace
      let d1 := s1.takeWhile Char.isDigit
      if d1.isEmpty then none else
      let u1 := (s1.drop d1.length).dropWhile jsIsSpace
      match u1 with
      | [] => none
      | c1 :: r2 =>
        if c1.toNat = 44 then
          let s2 := r2.dropWhile jsIsSpace
          let d2 := s2.takeWhile Char.isDigit
          if d2.isEmpty then none else
          let u2 := (s2.drop d2.length).dropWhile jsIsSpace
          match u2 with
          | [] => none
          | c2 :: r3 =>
            if c2.toNat = 44 then
              let s3 := r3.dropWhile jsIsSpace
              let d3 := s3.takeWhile Char.isDigit
              if d3.isEmpty then none
              else some ⟨digitsToInt d1, digitsToInt d2, digitsToInt d3⟩
            else none
        else none
    else none

/-- One attempt of the `rgba?` regex at a fixed position, including the
backtracking of the optional greedy `a?`. -/
def matchRgbAt (cs : List Char) : Option RGB :=
  match matchCI ("rgb".data) cs with
  | none => none
  | some r1 =>
    match r1 with
    | c :: r2 =>
      if jsToLower c = 'a' then
        match rgbTriple r2 with
        | some v => some v
        | none => rgbTriple r1
      else rgbTriple r1
    | [] => rgbTriple r1

/-- First match of the `rgb()` regex anywhere in the string
(`parseRgb` uses `str.match`, i.e. the first match).  Fueled scan;
the fuel is instantiated with the string length plus one. -/
def parseRgbScan (pat : Unit) : Nat → List Char → Option RGB
  | 0, _ => none
  | _, [] => none
  | fuel + 1, c :: cs =>
    match matchRgbAt (c :: cs) with
    | some v => some v
    | none => parseRgbScan pat fuel cs

/-- The source's `parseRgb`. -/
def parseRgb (cs : List Char) : Option RGB :=
  parseRgbScan () (cs.length + 1) cs

/-- The source's `parseColor`: trim, lower-case, reject the four
keyword values, then named colors, `#`-hex, `rgb(`-prefix, `url(`. -/
def parseColor (colorStr : String) : Option RGB :=
  let cs := (jsTrim colorStr.data).map jsToLower
  if cs = "none".data ∨ cs = "transparent".data ∨ cs = "inherit".data ∨
      cs = "currentcolor".data then none
  else
    match NAMED_COLORS.lookup (String.mk cs) with
    | some v => v
    | none =>
      match cs with
      | [] => none
      | c :: _ =>
        if c = '#' then parseHex cs
        else if startsWithList ("rgb".data) cs then parseRgb cs
        else if startsWithList ("url(".data) cs then none
        else none

/-
The extractor's regular-expression scans.

Every scan is a left-to-right, non-overlapping global matcher: at each
position a single match attempt is made; on success the scan resumes
after the matched text, on failure one character further.  Scans are
structured on a fuel argument (instantiated with the input length plus
one; every step consumes at least one input character, so the fuel
never runs out before the input does).
-/

/-- Character class `[^"';\s>]` of the attribute-value captures. -/
def isAttrValueChar (c : Char) : Bool :=
  !(c.toNat = 34 || c.toNat = 39 || c.toNat = 59 || jsIsSpace c || c.toNat = 62)

/-- One attempt, at a fixed position, of the attribute regexes
`fill\s*[=:]\s*["']?([^"';\s>]+)` (and the `stroke`/`stop-color`
variants): the optional greedy quote backtracks, but a quote character
can never start the capture class, so consuming the quote when present
is exact. -/
def matchAttrAt (pat : List Char) (cs : List Char) : Option (List Char × List Char) :=
  match matchCI pat cs with
  | none => none
  | some r1 =>
    let r2 := r1.dropWhile jsIsSpace
    match r2 with
    | [] => none
    | c :: r3 =>
      if c.toNat = 61 || c.toNat = 58 then
        let r4 := r3.dropWhile jsIsSpace
        let r5 := match r4 with
          | q :: qs => if q.toNat = 34 || q.toNat = 39 then qs else r4
          | [] => r4
        let v := r5.takeWhile isAttrValueChar
        if v.isEmpty then none else some (v, r5.drop v.length)
      else none

/-- Global scan with the attribute regex, collecting the captures
(`matchAll`, group 1). -/
def scanAttrVals (pat : List Char) : Nat → List Char → List String
  | 0, _ => []
  | _, [] => []
  | fuel + 1, c :: cs =>
    match matchAttrAt pat (c :: cs) with
    | some (v, rest) => String.mk v :: scanAttrVals pat fuel rest
    | none => scanAttrVals pat fuel cs

/-- One attempt of the style regex `style\s*=\s*["']([^"']+)`. -/
def matchStyleAt (cs : List Char) : Option (List Char × List Char) :=
  match matchCI ("style".data) cs with
  | none => none
  | some r1 =>
    let r2 := r1.dropWhile jsIsSpace
    match r2 with
    | [] => none
    | c :: r3 =>
      if c.toNat = 61 then
        let r4 := r3.dropWhile jsIsSpace
        match r4 with
        | [] => none
        | q :: qs =>
          if q.toNat = 34 || q.toNat = 39 then
            let v := qs.takeWhile (fun d => !(d.toNat = 34 || d.toNat = 39))
            if v.isEmpty then none else some (v, qs.drop v.length)
          else none
      else none

/-- Global scan with the style regex, collecting the style texts. -/
def scanStyleVals : Nat → List Char → List String
  | 0, _ => []
  | _, [] => []
  | fuel + 1, c :: cs =>
    match matchStyleAt (c :: cs) with
    | some (v, rest) => String.mk v :: scanStyleVals fuel rest
    | none => scanStyleVals fuel cs

/-- One attempt of the inline-style property regex
`fill\s*:\s*([^;]+)` (or the `stroke` variant).  The greedy `\s*`
backtracks exactly one whitespace character when the remainder offers
no `[^;]+` start; the capture is then that single whitespace character. -/
def matchPropAt (pat : List Char) (cs : List Char) : Option (List Char) :=
  match matchCI pat cs with
  | none => none
  | some r1 =>
    let r2 := r1.dropWhile jsIsSpace
    match r2 with
    | [] => none
    | c :: r3 =>
      if c.toNat = 58 then
        let ws := r3.takeWhile jsIsSpace
        let t := r3.drop ws.length
        let v := t.takeWhile (fun d => !(d.toNat = 59))
        if !v.isEmpty then some v
        else
          match ws.getLast? with
          | some w => some [w]
          | none => none
      else none

/-- First match of the style-property regex (`String.match`, first
match only), trimmed as the source does. -/
def firstStyleProp (pat : List Char) : Nat → List Char → Option String
  | 0, _ => none
  | _, [] => none
  | fuel + 1, c :: cs =>
    match matchPropAt pat (c :: cs) with
    | some v => some (String.mk (jsTrim v))
    | none => firstStyleProp pat fuel cs

/-- One attempt of the opening part `<tag\b[^>]*>` of a container
regex, returning the rest after the `>`. -/
def matchOpenAt (tag : List Char) (cs : List Char) : Option (List Char) :=
  match cs with
  | [] => none
  | c :: cs1 =>
    if c.toNat = 60 then
      match matchCI tag cs1 with
      | none => none
      | some r1 =>
        let bOK := match r1 with
          | [] => true
          | d :: _ => !isWordChar d
        if bOK then
          let r2 := r1.dropWhile (fun d => !(d.toNat = 62))
          match r2 with
          | g :: r3 => if g.toNat = 62 then some r3 else none
          | [] => none
        else none
    else none

/-- Earliest occurrence of the (case-insensitive) closing literal, as
the lazy `[\s\S]*?` finds it; returns the rest after it. -/
def findCloseAfter (close : List Char) : Nat → List Char → Option (List Char)
  | 0, _ => none
  | _, [] => none
  | fuel + 1, c :: cs =>
    match matchCI close (c :: cs) with
    | some rest => some rest
    | none => findCloseAfter close fuel cs

/-- Global replace-with-empty of `<tag\b[^>]*>[\s\S]*?<\/tag>`: a
matched span is dropped, an unmatched opening (no closing literal
afterwards) is kept and the scan resumes one character further. -/
def stripTagAux (tag close : List Char) : Nat → List Char → List Char
  | 0, cs => cs
  | _, [] => []
  | fuel + 1, c :: cs =>
    match matchOpenAt tag (c :: cs) with
    | some afterOpen =>
      match findCloseAfter close (afterOpen.length + 1) afterOpen with
      | some rest => stripTagAux tag close fuel rest
      | none => c :: stripTagAux tag close fuel cs
    | none => c :: stripTagAux tag close fuel cs

/-- Removal of one non-rendering container kind from the text. -/
def stripTag (tag : List Char) (cs : List Char) : List Char :=
  stripTagAux tag ("</".data ++ tag ++ ">".data) (cs.length + 1) cs

/-- The `svgClean` working copy: the five container kinds removed in
the source's order (defs, clipPath, mask, symbol, pattern). -/
def svgCleanOf (s : String) : List Char :=
  stripTag ("pattern".data)
    (stripTag ("symbol".data)
      (stripTag ("mask".data)
        (stripTag ("clippath".data)
          (stripTag ("defs".data) s.data))))

/-- Test for `fill\s*=` starting at the current position. -/
def fillEqAt (cs : List Char) : Bool :=
  match matchCI ("fill".data) cs with
  | none => false
  | some r1 =>
    match r1.dropWhile jsIsSpace with
    | d :: _ => d.toNat = 61
    | [] => false

/-- Scan of the `[^>]*` region of `<g\b[^>]*\bfill\s*=` for a
word-boundary-preceded `fill\s*=`; `prevWord` tracks whether the
previous character was a word character (initially true: the tag name
ends in a letter). -/
def scanFillInTag : Bool → Nat → List Char → Bool
  | _, 0, _ => false
  | _, _, [] => false
  | prevWord, fuel + 1, c :: cs =>
    if c.toNat = 62 then false
    else if !prevWord && fillEqAt (c :: cs) then true
    else scanFillInTag (isWordChar c) fuel cs

/-- Existence test for `<tag\b[^>]*\bfill\s*=` (`RegExp.test`). -/
def hasTagFill (tag : List Char) : Nat → List Char → Bool
  | 0, _ => false
  | _, [] => false
  | fuel + 1, c :: cs =>
    (if c.toNat = 60 then
      match matchCI tag cs with
      | some r1 =>
        (match r1 with
         | [] => false
         | d :: _ =>
           if isWordChar d then false
           else scanFillInTag true (r1.length + 1) r1)
      | none => false
     else false)
    || hasTagFill tag fuel cs

/-- The shape-element names, in the regex's alternation order. -/
def shapeNames : List (List Char) :=
  ["path".data, "rect".data, "circle".data, "polygon".data,
   "ellipse".data, "polyline".data]

/-- One attempt of `<(path|rect|circle|polygon|ellipse|polyline)\b([^>]*)>`,
returning the attribute capture and the rest after the `>`. -/
def matchShapeAt (cs : List Char) : Option (List Char × List Char) :=
  match cs with
  | [] => none
  | c :: cs1 =>
    if c.toNat = 60 then
      shapeNames.foldl (fun acc nm =>
        match acc with
        | some r => some r
        | none =>
          match matchCI nm cs1 with
          | none => none
          | some r1 =>
            let bOK := match r1 with
              | [] => true
              | d :: _ => !isWordChar d
            if bOK then
              let attrs := r1.takeWhile (fun d => !(d.toNat = 62))
              let r2 := r1.drop attrs.length
              match r2 with
              | g :: r3 => if g.toNat = 62 then some (attrs, r3) else none
              | [] => none
            else none) none
    else none

/-- Global scan for shape elements, collecting the attribute texts. -/
def scanShapes : Nat → List Char → List String
  | 0, _ => []
  | _, [] => []
  | fuel + 1, c :: cs =>
    match matchShapeAt (c :: cs) with
    | some (attrs, rest) => String.mk attrs :: scanShapes fuel rest
    | none => scanShapes fuel cs

/-
The extractor (`extractColorsFromSvg`), staged.
-/

/-- Append-if-absent, the behavior of `Set.add` followed by iteration
in insertion order. -/
def insertNew (l : List String) (x : String) : List String :=
  if x ∈ l then l else l ++ [x]

/-- First-occurrence deduplication, the behavior of collecting strings
into a `Set` and iterating it. -/
def dedupKeepFirst (l : List String) : List String :=
  l.foldl insertNew []

/-- All color strings collected from the document text: `fill`,
`stroke`, `stop-color` attribute captures, then for every `style`
attribute its first `fill:` and `stroke:` property values; deduplicated
in first-insertion order.  The scans run on the full document text. -/
def collectColorStrings (cs : List Char) : List String :=
  let fills := scanAttrVals ("fill".data) (cs.length + 1) cs
  let strokes := scanAttrVals ("stroke".data) (cs.length + 1) cs
  let stops := scanAttrVals ("stop-color".data) (cs.length + 1) cs
  let styles := scanStyleVals (cs.length + 1) cs
  let styleVals := styles.foldl (fun acc st =>
    acc ++ (firstStyleProp ("fill".data) (st.data.length + 1) st.data).toList
        ++ (firstStyleProp ("stroke".data) (st.data.length + 1) st.data).toList) []
  dedupKeepFirst (fills ++ strokes ++ stops ++ styleVals)

/-- One iteration of the extractor's parsing loop: a parsed color is
appended to the raw list and its classification added to the color set. -/
def parseStepF (acc : List RGB × List String) (cstr : String) :
    List RGB × List String :=
  match parseColor cstr with
  | some rgb =>
    let raw := acc.1 ++ [rgb]
    match findClosestColor rgb with
    | some nm => (raw, insertNew acc.2 nm)
    | none => (raw, acc.2)
  | none => acc

/-- Parsing loop of the extractor over all collected color strings. -/
def parseStep (strs : List String) : List RGB × List String :=
  strs.foldl parseStepF ([], [])

/-- Color strings of a document. -/
def colorStringsOf (s : String) : List String :=
  collectColorStrings s.data

/-- Raw parsed colors of a document, in match order, with multiplicity. -/
def rawColorsOf (s : String) : List RGB :=
  (parseStep (colorStringsOf s)).1

/-- Raw blue-ish colors of a document. -/
def rawBluesOf (s : String) : List RGB :=
  (rawColorsOf s).filter (fun rgb => isBlueish rgb)

/-- Inheritable-fill heuristic: some `<g ... fill=` or `<svg ... fill=`
exists in the stripped copy. -/
def hasInheritableFillOf (s : String) : Bool :=
  hasTagFill ("g".data) ((svgCleanOf s).length + 1) (svgCleanOf s) ||
    hasTagFill ("svg".data) ((svgCleanOf s).length + 1) (svgCleanOf s)

/-- Shape-element attribute texts of the stripped copy. -/
def shapeAttrsOf (s : String) : List String :=
  scanShapes ((svgCleanOf s).length + 1) (svgCleanOf s)

/-- Per-shape test of the default-black branch: neither a fill nor a
stroke marker occurs in the attribute text (JS `includes`,
case-sensitive). -/
def shapeLacksPaint (attrs : String) : Bool :=
  let hasFill := hasSubstr ("fill=".data) attrs.data ||
    hasSubstr ("fill:".data) attrs.data
  let hasStroke := hasSubstr ("stroke=".data) attrs.data ||
    hasSubstr ("stroke:".data) attrs.data
  !hasFill && !hasStroke

/-- Classified color set of a document before the blue exception: the
parse-loop set, plus the inferred default black when some shape in the
stripped copy lacks fill and stroke and no inheritable fill exists
(the source breaks after the first such shape; adding once is the same). -/
def classifiedColorsOf (s : String) : List String :=
  if !(hasInheritableFillOf s) && (shapeAttrsOf s).any shapeLacksPaint then
    insertNew (parseStep (colorStringsOf s)).2 "black"
  else (parseStep (colorStringsOf s)).2

/-- Palette index used by the final sort comparator
(`colorOrder.indexOf`, `-1` when absent). -/
def paletteIdx (nm : String) : Int :=
  match paletteNames.findIdx? (fun x => x == nm) with
  | some i => (i : Int)
  | none => -1

/-- Result record of the extractor. -/
structure ExtractResult where
  colors : List String
  rawColorCount : Nat
  rawBlueCount : Nat
deriving DecidableEq

/-- The source's `extractColorsFromSvg`: collect and classify colors,
infer the default black, apply the blue exception, sort into palette
order. -/
def extractColorsFromSvg (s : String) : ExtractResult :=
  { colors := stableSort (fun a b => decide (paletteIdx a ≤ paletteIdx b))
      (applyBlueException (classifiedColorsOf s) (rawBluesOf s))
    rawColorCount := (rawColorsOf s).length
    rawBlueCount := (rawBluesOf s).length }

/-
The batch driver (`main` of the extractor script), modelled over an
explicit file system: an association list from file names to `Option`
contents, where `none` marks a file whose read fails.  The driver
lists the directory, keeps the `.svg` names, sorts them (JS default
sort: lexicographic by code units), and processes them in order with
no per-file exception handling, so a failing read aborts the loop and
nothing is written; the `Except.error` carries the failing file name.
-/

/-- Aggregate record written per flag. -/
structure FlagRecord where
  colors : List String
  colorCount : Nat
  rawColorCount : Nat
deriving DecidableEq

/-- Lexicographic order on code units (JS default string comparison). -/
def lexLe : List Char → List Char → Bool
  | [], _ => true
  | _ :: _, [] => false
  | a :: as, b :: bs =>
    if a.toNat < b.toNat then true
    else if b.toNat < a.toNat then false
    else lexLe as bs

/-- JS `replace('.svg', '')`: removes the first occurrence only. -/
def replaceFirstSub (pat : List Char) : List Char → List Char
  | [] => []
  | c :: cs =>
    if startsWithList pat (c :: cs) then (c :: cs).drop pat.length
    else c :: replaceFirstSub pat cs

/-- Flag identifier of a file name (`file.replace('.svg','').toUpperCase()`). -/
def isoOf (file : String) : String :=
  String.mk ((replaceFirstSub (".svg".data) file.data).map jsToUpper)

/-- Result of `fs.readFile`: the content when the file exists and is
readable, `none` when the read would throw. -/
def lookupContent (fsys : List (String × Option String)) (name : String) :
    Option String :=
  match fsys.lookup name with
  | some (some c) => some c
  | _ => none

/-- The per-file loop of `main`: builds the aggregate record list in
order; a failing read aborts the whole loop (there is no per-file
`try`/`catch` in the source). -/
def processFiles (fsys : List (String × Option String)) :
    List String → List (String × FlagRecord) →
      Except String (List (String × FlagRecord))
  | [], acc => Except.ok acc
  | name :: rest, acc =>
    match lookupContent fsys name with
    | some content =>
      processFiles fsys rest
        (acc ++ [(isoOf name,
          ⟨(extractColorsFromSvg content).colors,
           (extractColorsFromSvg content).colors.length,
           (extractColorsFromSvg content).rawColorCount⟩)])
    | none => Except.error name

/-- Directory listing filtered to `.svg` files and sorted. -/
def svgFilesOf (fsys : List (String × Option String)) : List String :=
  stableSort (fun a b => lexLe a.data b.data)
    ((fsys.map Prod.fst).filter (fun f => endsWithList (".svg".data) f.data))

/-- The batch driver: `Except.ok records` models a completed run whose
aggregate artifact holds exactly `records`; `Except.error name` models
the run aborting with the uncaught read failure of `name` (the output
file is then never written). -/
def runBatch (fsys : List (String × Option String)) :
    Except String (List (String × FlagRecord)) :=
  processFiles fsys (svgFilesOf fsys) []

/-
Concrete documents used as counterexamples and witnesses.
-/

/-- Document whose only color declaration sits inside a `defs` block. -/
def docDefsOnly : String := "<svg><defs><rect fill=\"#c81e1e\"/></defs></svg>"

/-- The same declaration outside any container. -/
def docPlainRed : String := "<svg><rect fill=\"#c81e1e\"/></svg>"

/-- Document with a single fill sitting exactly on the light-blue
palette anchor. -/
def docAnchorLightBlue : String := "<svg><rect fill=\"#64b4e6\"/></svg>"

/-- Document with a dark blue fill and a light blue-ish grey fill,
driving the blue-exception branch. -/
def docTwoBlues : String := "<svg><rect fill=\"#001f6e\"/><rect fill=\"#787d87\"/></svg>"

/-- Document with one bare shape and no color declaration at all. -/
def docBareShape : String := "<svg><path d=\"M0 0h10v10z\"/></svg>"

/-- A two-file batch whose second file is unreadable. -/
def batchOneBad : List (String × Option String) :=
  [("aa.svg", some docPlainRed), ("bb.svg", none)]

/-
Helper lemmas about the stable sort.
-/

theorem insertLe_perm {α : Type} (le : α → α → Bool) (x : α) :
    ∀ l : List α, (insertLe le x l).Perm (x :: l)
  | [] => by simp [insertLe]
  | y :: ys => by
    unfold insertLe
    split
    · exact List.Perm.refl _
    · exact ((insertLe_perm le x ys).cons y).trans (List.Perm.swap x y ys)

theorem stableSort_perm {α : Type} (le : α → α → Bool) :
    ∀ l : List α, (stableSort le l).Perm l
  | [] => List.Perm.refl _
  | x :: xs => (insertLe_perm le x _).trans ((stableSort_perm le xs).cons x)

theorem pairwise_insertLe {α : Type} (le : α → α → Bool)
    (htot : ∀ a b, le a b = true ∨ le b a = true)
    (htrans : ∀ a b c, le a b = true → le b c = true → le a c = true)
    (x : α) : ∀ l : List α, l.Pairwise (fun a b => le a b = true) →
      (insertLe le x l).Pairwise (fun a b => le a b = true)
  | [], _ => by simp [insertLe]
  | y :: ys, h => by
    rw [List.pairwise_cons] at h
    unfold insertLe
    split
    next hxy =>
      rw [List.pairwise_cons]
      refine ⟨?_, List.pairwise_cons.mpr h⟩
      intro z hz
      rcases List.mem_cons.mp hz with rfl | hz2
      · exact hxy
      · exact htrans x y z hxy (h.1 z hz2)
    next hxy =>
      rw [List.pairwise_cons]
      refine ⟨?_, pairwise_insertLe le htot htrans x ys h.2⟩
      intro z hz
      have hmem := (insertLe_perm le x ys).mem_iff.mp hz
      rcases List.mem_cons.mp hmem with rfl | hz2
      · rcases htot z y with h1 | h2
        · exact absurd h1 hxy
        · exact h2
      · exact h.1 z hz2

theorem pairwise_stableSort {α : Type} (le : α → α → Bool)
    (htot : ∀ a b, le a b = true ∨ le b a = true)
    (htrans : ∀ a b c, le a b = true → le b c = true → le a c = true) :
    ∀ l : List α, (stableSort le l).Pairwise (fun a b => le a b = true)
  | [] => List.Pairwise.nil
  | x :: xs =>
    pairwise_insertLe le htot htrans x _ (pairwise_stableSort le htot htrans xs)

theorem pairwise_getLast {α : Type} {P : α → α → Prop} :
    ∀ (l : List α) (g : α), l.Pairwise P → l.getLast? = some g →
      ∀ x ∈ l, x = g ∨ P x g
  | [], g, _, h => by simp at h
  | [a], g, _, h => by
    intro x hx
    simp only [List.getLast?_singleton, Option.some.injEq] at h
    simp only [List.mem_singleton] at hx
    subst h; subst hx; exact Or.inl rfl
  | a :: b :: t, g, hp, h => by
    intro x hx
    have h2 : (b :: t).getLast? = some g := by
      simpa [List.getLast?_cons_cons] using h
    rcases List.mem_cons.mp hx with rfl | hx2
    · right
      have hg : g ∈ b :: t := by
        have hne : (b :: t) ≠ [] := by simp
        rw [List.getLast?_eq_getLast _ hne] at h2
        cases h2
        exact List.getLast_mem hne
      exact (List.pairwise_cons.mp hp).1 g hg
    · exact pairwise_getLast (b :: t) g (List.pairwise_cons.mp hp).2 h2 x hx2

/-
Helper lemmas about the extractor's set accumulation.
-/

theorem mem_insertNew {l : List String} {x y : String} :
    y ∈ insertNew l x ↔ y = x ∨ y ∈ l := by
  unfold insertNew
  split
  next hx =>
    constructor
    · exact Or.inr
    · rintro (rfl | h)
      · exact hx
      · exact h
  next hx => simp [List.mem_append, or_comm]

theorem nodup_insertNew {l : List String} {x : String} (h : l.Nodup) :
    (insertNew l x).Nodup := by
  unfold insertNew
  split
  · exact h
  next hx =>
    refine h.append (List.nodup_singleton x) ?_
    intro a ha hax
    simp only [List.mem_singleton] at hax
    subst hax
    exact hx ha

/-
Nearest-color classifier: characterization of the fold.
-/

theorem closest_fold_spec (rgb : RGB) :
    ∀ (l : List (String × RGB)) (b : String) (d0 : Int),
      (l.foldl (closestStep rgb) (some (b, d0)) = some (b, d0) ∧
        ∀ p ∈ l, d0 ≤ colorDistSq rgb p.2) ∨
      (∃ pre p post, l = pre ++ p :: post ∧
        l.foldl (closestStep rgb) (some (b, d0)) = some (p.1, colorDistSq rgb p.2) ∧
        colorDistSq rgb p.2 < d0 ∧
        (∀ q ∈ l, colorDistSq rgb p.2 ≤ colorDistSq rgb q.2) ∧
        (∀ q ∈ pre, colorDistSq rgb p.2 < colorDistSq rgb q.2))
  | [], b, d0 => by
    left
    exact ⟨rfl, by simp⟩
  | q :: l, b, d0 => by
    have hstep : (q :: l).foldl (closestStep rgb) (some (b, d0)) =
        l.foldl (closestStep rgb) (closestStep rgb (some (b, d0)) q) := rfl
    by_cases hlt : colorDistSq rgb q.2 < d0
    · have hq : closestStep rgb (some (b, d0)) q = some (q.1, colorDistSq rgb q.2) := by
        simp [closestStep, hlt]
      rcases closest_fold_spec rgb l q.1 (colorDistSq rgb q.2) with ⟨heq, hall⟩ | hex
      · right
        refine ⟨[], q, l, by simp, ?_, hlt, ?_, by simp⟩
        · rw [hstep, hq, heq]
        · intro r hr
          rcases List.mem_cons.mp hr with rfl | hr2
          · exact le_refl _
          · exact hall r hr2
      · obtain ⟨pre, p, post, hl, heq, hplt, hall, hpre⟩ := hex
        right
        refine ⟨q :: pre, p, post, by rw [hl, List.cons_append], ?_, lt_trans hplt hlt, ?_, ?_⟩
        · rw [hstep, hq, heq]
        · intro r hr
          rcases List.mem_cons.mp hr with rfl | hr2
          · exact le_of_lt hplt
          · exact hall r hr2
        · intro r hr
          rcases List.mem_cons.mp hr with rfl | hr2
          · exact hplt
          · exact hpre r hr2
    · have hq : closestStep rgb (some (b, d0)) q = some (b, d0) := by
        simp [closestStep, hlt]
      rcases closest_fold_spec rgb l b d0 with ⟨heq, hall⟩ | hex
      · left
        refine ⟨by rw [hstep, hq, heq], ?_⟩
        intro r hr
        rcases List.mem_cons.mp hr with rfl | hr2
        · exact le_of_not_lt hlt
        · exact hall r hr2
      · obtain ⟨pre, p, post, hl, heq, hplt, hall, hpre⟩ := hex
        right
        refine ⟨q :: pre, p, post, by rw [hl, List.cons_append], ?_, hplt, ?_, ?_⟩
        · rw [hstep, hq, heq]
        · intro r hr
          rcases List.mem_cons.mp hr with rfl | hr2
          · exact le_trans (le_of_lt hplt) (le_of_not_lt hlt)
          · exact hall r hr2
        · intro r hr
          rcases List.mem_cons.mp hr with rfl | hr2
          · exact lt_of_lt_of_le hplt (le_of_not_lt hlt)
          · exact hpre r hr2

theorem findClosestColor_split (rgb : RGB) :
    ∃ pre p post, ACCEPTED_COLORS = pre ++ p :: post ∧
      findClosestColor rgb = some p.1 ∧
      (∀ q ∈ ACCEPTED_COLORS, colorDistSq rgb p.2 ≤ colorDistSq rgb q.2) ∧
      (∀ q ∈ pre, colorDistSq rgb p.2 < colorDistSq rgb q.2) := by
  have hunfold : findClosestColor rgb =
      ((("black", (⟨0, 0, 0⟩ : RGB)) :: ACCEPTED_COLORS.tail).foldl
        (closestStep rgb) none).map Prod.fst := rfl
  have hstep : (("black", (⟨0, 0, 0⟩ : RGB)) :: ACCEPTED_COLORS.tail).foldl
      (closestStep rgb) none =
      ACCEPTED_COLORS.tail.foldl (closestStep rgb)
        (some ("black", colorDistSq rgb ⟨0, 0, 0⟩)) := rfl
  rcases closest_fold_spec rgb ACCEPTED_COLORS.tail "black"
      (colorDistSq rgb ⟨0, 0, 0⟩) with ⟨heq, hall⟩ | hex
  · refine ⟨[], ("black", ⟨0, 0, 0⟩), ACCEPTED_COLORS.tail, rfl, ?_, ?_, by simp⟩
    · rw [hunfold, hstep, heq]; rfl
    · intro q hq
      rcases List.mem_cons.mp hq with rfl | hq2
      · exact le_refl _
      · exact hall q hq2
  · obtain ⟨pre, p, post, hl, heq, hplt, hall, hpre⟩ := hex
    refine ⟨("black", ⟨0, 0, 0⟩) :: pre, p, post, ?_, ?_, ?_, ?_⟩
    · show ACCEPTED_COLORS = ("black", (⟨0, 0, 0⟩ : RGB)) :: (pre ++ p :: post)
      rw [← hl]; rfl
    · rw [hunfold, hstep, heq]; rfl
    · intro q hq
      rcases List.mem_cons.mp hq with rfl | hq2
      · exact le_of_lt hplt
      · exact hall q hq2
    · intro q hq
      rcases List.mem_cons.mp hq with rfl | hq2
      · exact hplt
      · exact hpre q hq2

theorem findClosestColor_mem {rgb : RGB} {n : String}
    (h : findClosestColor rgb = some n) : n ∈ paletteNames := by
  obtain ⟨pre, p, post, heq, hfc, -, -⟩ := findClosestColor_split rgb
  rw [h] at hfc
  cases hfc
  have hp : p ∈ ACCEPTED_COLORS := by
    rw [heq]; exact List.mem_append_right _ (List.mem_cons_self _ _)
  exact List.mem_map_of_mem Prod.fst hp

/-
Helper lemmas about the parse loop and the blue exception.
-/

theorem parseStep_fold_inv :
    ∀ (strs : List String) (acc : List RGB × List String),
      acc.2.Nodup → (∀ c ∈ acc.2, c ∈ paletteNames) →
      (strs.foldl parseStepF acc).2.Nodup ∧
        ∀ c ∈ (strs.foldl parseStepF acc).2, c ∈ paletteNames
  | [], acc, h1, h2 => ⟨h1, h2⟩
  | s :: strs, acc, h1, h2 => by
    have hnext : (parseStepF acc s).2.Nodup ∧
        ∀ c ∈ (parseStepF acc s).2, c ∈ paletteNames := by
      unfold parseStepF
      split
      next rgb hp =>
        split
        next nm hn =>
          refine ⟨nodup_insertNew h1, ?_⟩
          intro c hc
          rcases mem_insertNew.mp hc with rfl | hc2
          · exact findClosestColor_mem hn
          · exact h2 c hc2
        next => exact ⟨h1, h2⟩
      next => exact ⟨h1, h2⟩
    exact parseStep_fold_inv strs (parseStepF acc s) hnext.1 hnext.2

theorem parseStep_inv (strs : List String) :
    ((parseStep strs).2).Nodup ∧ ∀ c ∈ (parseStep strs).2, c ∈ paletteNames :=
  parseStep_fold_inv strs ([], []) List.nodup_nil (by simp)

theorem applyBlueException_cases (colors : List String) (rawBlues : List RGB) :
    applyBlueException colors rawBlues = colors ∨
    (applyBlueException colors rawBlues = colors ++ ["light blue"] ∧
      "blue" ∈ colors ∧ 2 ≤ rawBlues.length ∧ "light blue" ∉ colors) := by
  unfold applyBlueException
  split
  · exact Or.inl rfl
  next hguard =>
    push_neg at hguard
    split
    next darkest lightest _ _ =>
      split
      next hcond =>
        split
        next => exact Or.inr ⟨rfl, hguard.1, hguard.2, hcond.2⟩
        next => exact Or.inl rfl
      next => exact Or.inl rfl
    next => exact Or.inl rfl

/-
Claims.
-/

/-- Claim C4: `applyBlueException` returns the set unchanged when
"blue" is absent or fewer than two raw blue-ish triples exist; it is a
no-op when "light blue" is already present; otherwise it appends
"light blue" exactly when the lightness difference between the lightest
and darkest blue-ish triple exceeds 20 and the maximum lightness
exceeds 45 (lightness scaled by 2550: thresholds 51000 and 114750). -/
theorem c4_applyBlueException_spec (colors : List String) (rawBlues : List RGB) :
    (("blue" ∉ colors ∨ rawBlues.length < 2) →
      applyBlueException colors rawBlues = colors) ∧
    ("light blue" ∈ colors → applyBlueException colors rawBlues = colors) ∧
    (∀ lo hi : Int, "blue" ∈ colors → 2 ≤ rawBlues.length →
      (rawBlues.map getLightness2550).minimum = (lo : Int) →
      (rawBlues.map getLightness2550).maximum = (hi : Int) →
      applyBlueException colors rawBlues =
        if 51000 < hi - lo ∧ 114750 < hi ∧ "light blue" ∉ colors
        then colors ++ ["light blue"] else colors) := by
  have htot : ∀ a b : RGB × Int,
      (fun a b : RGB × Int => decide (a.2 ≤ b.2)) a b = true ∨
      (fun a b : RGB × Int => decide (a.2 ≤ b.2)) b a = true := by
    intro a b
    rcases le_total a.2 b.2 with h | h
    · exact Or.inl (decide_eq_true h)
    · exact Or.inr (decide_eq_true h)
  have htrans : ∀ a b c : RGB × Int,
      (fun a b : RGB × Int => decide (a.2 ≤ b.2)) a b = true →
      (fun a b : RGB × Int => decide (a.2 ≤ b.2)) b c = true →
      (fun a b : RGB × Int => decide (a.2 ≤ b.2)) a c = true := by
    intro a b c hab hbc
    exact decide_eq_true (le_trans (of_decide_eq_true hab) (of_decide_eq_true hbc))
  refine ⟨?_, ?_, ?_⟩
  · intro h
    unfold applyBlueException
    rw [if_pos h]
  · intro hlb
    unfold applyBlueException
    split
    · rfl
    · split
      next darkest lightest _ _ =>
        rw [if_neg]
        intro hc
        exact hc.2 hlb
      next => rfl
  · intro lo hi hblue hlen hmin hmax
    have hperm : (sortedBlues rawBlues).Perm
        (rawBlues.map (fun rgb => (rgb, getLightness2550 rgb))) :=
      stableSort_perm _ _
    have hpw : (sortedBlues rawBlues).Pairwise
        (fun a b : RGB × Int => decide (a.2 ≤ b.2) = true) :=
      pairwise_stableSort _ htot htrans _
    have hmap : (rawBlues.map (fun rgb => (rgb, getLightness2550 rgb))).map Prod.snd
        = rawBlues.map getLightness2550 := by
      rw [List.map_map]; rfl
    have hlen2 : 2 ≤ (sortedBlues rawBlues).length := by
      rw [hperm.length_eq, List.length_map]; exact hlen
    rw [List.minimum_eq_coe_iff] at hmin
    rw [List.maximum_eq_coe_iff] at hmax
    match hsort : sortedBlues rawBlues with
    | [] => rw [hsort] at hlen2; simp at hlen2
    | hd :: tl =>
      rw [hsort] at hperm hpw
      obtain ⟨g, hg⟩ : ∃ g, (hd :: tl).getLast? = some g :=
        ⟨_, List.getLast?_eq_getLast _ (by simp)⟩
      have hgmem : g ∈ hd :: tl := by
        rw [List.getLast?_eq_getLast _ (by simp)] at hg
        cases hg
        exact List.getLast_mem _
      have hdlow : ∀ p ∈ hd :: tl, hd.2 ≤ p.2 := by
        intro p hp
        rcases List.mem_cons.mp hp with rfl | hp2
        · exact le_refl _
        · exact of_decide_eq_true ((List.pairwise_cons.mp hpw).1 p hp2)
      have hghigh : ∀ p ∈ hd :: tl, p.2 ≤ g.2 := by
        intro p hp
        rcases pairwise_getLast (hd :: tl) g hpw hg p hp with rfl | h2
        · exact le_refl _
        · exact of_decide_eq_true h2
      have hmemL : ∀ p ∈ hd :: tl, p.2 ∈ rawBlues.map getLightness2550 := by
        intro p hp
        rw [← hmap]
        exact List.mem_map_of_mem _ (hperm.mem_iff.mp hp)
      have hallL : ∀ a ∈ rawBlues.map getLightness2550,
          hd.2 ≤ a ∧ a ≤ g.2 := by
        intro a ha
        rw [← hmap] at ha
        obtain ⟨p, hp, rfl⟩ := List.mem_map.mp ha
        have hp2 : p ∈ hd :: tl := hperm.mem_iff.mpr hp
        exact ⟨hdlow p hp2, hghigh p hp2⟩
      have hlo : hd.2 = lo :=
        le_antisymm (hallL lo hmin.1).1 (hmin.2 hd.2 (hmemL hd (List.mem_cons_self _ _)))
      have hhi : g.2 = hi :=
        le_antisymm (hmax.2 g.2 (hmemL g hgmem)) (hallL hi hmax.1).2
      unfold applyBlueException
      rw [if_neg (fun hcon => hcon.elim (fun h => h hblue)
        (fun h => absurd hlen (by omega)))]
      rw [hsort, hg]
      simp only [List.head?_cons]
      rw [hlo, hhi]
      split_ifs <;> first | rfl | tauto

/-- Witness for C4: a dark blue and a light blue-ish grey triple whose
scaled lightness extremes are 30737 and 124645; the difference exceeds
51000 and the maximum exceeds 114750, so "light blue" is appended. -/
theorem c4_witness :
    ("blue" ∈ (["blue"] : List String)) ∧
    applyBlueException ["blue"] [⟨0, 31, 110⟩, ⟨120, 125, 135⟩] =
      ["blue", "light blue"] := by
  refine ⟨by decide, ?_⟩
  have h := (c4_applyBlueException_spec ["blue"]
    [⟨0, 31, 110⟩, ⟨120, 125, 135⟩]).2.2 30737 124645
    (by decide) (by decide) (by decide) (by decide)
  rw [h]
  decide

/-- Claim C5: `findClosestColor` is total on RGB triples: it always
returns `some` name drawn from the palette table, the returned entry
has minimal (squared, hence also Euclidean) distance to the input
among all anchors, and it is the first entry of the table attaining
that minimum (entries strictly before it are strictly farther). -/
theorem c5_findClosestColor_total_minimal (rgb : RGB) :
    ∃ pre p post, ACCEPTED_COLORS = pre ++ p :: post ∧
      findClosestColor rgb = some p.1 ∧ p.1 ∈ paletteNames ∧
      (∀ q ∈ ACCEPTED_COLORS, colorDistSq rgb p.2 ≤ colorDistSq rgb q.2) ∧
      (∀ q ∈ pre, colorDistSq rgb p.2 < colorDistSq rgb q.2) := by
  obtain ⟨pre, p, post, h1, h2, h3, h4⟩ := findClosestColor_split rgb
  exact ⟨pre, p, post, h1, h2, findClosestColor_mem h2, h3, h4⟩

/-- Claim C9: classifying any palette anchor returns its own name. -/
theorem c9_anchor_idempotent :
    ∀ p ∈ ACCEPTED_COLORS, findClosestColor p.2 = some p.1 := by decide

/-- Witness for C9 at the blue anchor. -/
theorem c9_witness :
    ("blue", (⟨0, 50, 160⟩ : RGB)) ∈ ACCEPTED_COLORS ∧
    findClosestColor ⟨0, 50, 160⟩ = some "blue" :=
  ⟨by decide, c9_anchor_idempotent ("blue", ⟨0, 50, 160⟩) (by decide)⟩

/-- Claim C10: `parseColor` on `rgb(999,0,0)` returns the channel 999
unclamped (no range check), the value exceeds the 8-bit bound 255, and
the downstream lightness exceeds 100 (scaled: 255000). -/
theorem c10_parseRgb_unclamped :
    parseColor "rgb(999,0,0)" = some ⟨999, 0, 0⟩ ∧ (255 : Int) < 999 ∧
      255000 < getLightness2550 ⟨999, 0, 0⟩ :=
  ⟨by decide, by decide, by decide⟩

/-- Claim C8: for every document the final color list is
duplicate-free, contained in the twelve canonical names, and strictly
increasing in palette-table order. -/
theorem c8_colors_invariants (s : String) :
    ((extractColorsFromSvg s).colors).Nodup ∧
    (∀ c ∈ (extractColorsFromSvg s).colors, c ∈ paletteNames) ∧
    ((extractColorsFromSvg s).colors).Pairwise
      (fun a b => paletteIdx a < paletteIdx b) := by
  have htot : ∀ a b : String,
      (fun a b : String => decide (paletteIdx a ≤ paletteIdx b)) a b = true ∨
      (fun a b : String => decide (paletteIdx a ≤ paletteIdx b)) b a = true := by
    intro a b
    rcases le_total (paletteIdx a) (paletteIdx b) with h | h
    · exact Or.inl (decide_eq_true h)
    · exact Or.inr (decide_eq_true h)
  have htrans : ∀ a b c : String,
      (fun a b : String => decide (paletteIdx a ≤ paletteIdx b)) a b = true →
      (fun a b : String => decide (paletteIdx a ≤ paletteIdx b)) b c = true →
      (fun a b : String => decide (paletteIdx a ≤ paletteIdx b)) a c = true := by
    intro a b c hab hbc
    exact decide_eq_true (le_trans (of_decide_eq_true hab) (of_decide_eq_true hbc))
  have hinj : ∀ a ∈ paletteNames, ∀ b ∈ paletteNames,
      paletteIdx a = paletteIdx b → a = b := by decide
  have hbase := parseStep_inv (colorStringsOf s)
  have hcl : (classifiedColorsOf s).Nodup ∧
      ∀ c ∈ classifiedColorsOf s, c ∈ paletteNames := by
    unfold classifiedColorsOf
    split
    · refine ⟨nodup_insertNew hbase.1, ?_⟩
      intro c hc
      rcases mem_insertNew.mp hc with rfl | hc2
      · decide
      · exact hbase.2 c hc2
    · exact hbase
  have happ : (applyBlueException (classifiedColorsOf s) (rawBluesOf s)).Nodup ∧
      ∀ c ∈ applyBlueException (classifiedColorsOf s) (rawBluesOf s),
        c ∈ paletteNames := by
    rcases applyBlueException_cases (classifiedColorsOf s) (rawBluesOf s) with
      heq | ⟨heq, -, -, hnot⟩
    · rw [heq]; exact hcl
    · rw [heq]
      refine ⟨hcl.1.append (List.nodup_singleton _) ?_, ?_⟩
      · intro a ha hax
        simp only [List.mem_singleton] at hax
        subst hax
        exact hnot ha
      · intro c hc
        rcases List.mem_append.mp hc with hc2 | hc2
        · exact hcl.2 c hc2
        · simp only [List.mem_singleton] at hc2
          subst hc2
          decide
  have hcolors : (extractColorsFromSvg s).colors =
      stableSort (fun a b => decide (paletteIdx a ≤ paletteIdx b))
        (applyBlueException (classifiedColorsOf s) (rawBluesOf s)) := rfl
  have hperm := stableSort_perm (fun a b => decide (paletteIdx a ≤ paletteIdx b))
    (applyBlueException (classifiedColorsOf s) (rawBluesOf s))
  have hnd : ((extractColorsFromSvg s).colors).Nodup := by
    rw [hcolors]
    exact (hperm.nodup_iff).mpr happ.1
  have hmem : ∀ c ∈ (extractColorsFromSvg s).colors, c ∈ paletteNames := by
    rw [hcolors]
    intro c hc
    exact happ.2 c (hperm.mem_iff.mp hc)
  refine ⟨hnd, hmem, ?_⟩
  have hpw : ((extractColorsFromSvg s).colors).Pairwise
      (fun a b => decide (paletteIdx a ≤ paletteIdx b) = true) := by
    rw [hcolors]
    exact pairwise_stableSort _ htot htrans _
  have hcomb := hpw.and hnd
  refine hcomb.imp_of_mem ?_
  intro a b ha hb hab
  refine lt_of_le_of_ne (of_decide_eq_true hab.1) ?_
  intro he
  exact hab.2 (hinj a (hmem a ha) b (hmem b hb) he)

/-- Counterexample for C3: a document whose only fill is the light-blue
palette anchor itself yields "light blue" without "blue", and with only
one raw blue-ish triple. -/
theorem c3_counterexample :
    "light blue" ∈ (extractColorsFromSvg docAnchorLightBlue).colors ∧
    "blue" ∉ (extractColorsFromSvg docAnchorLightBlue).colors ∧
    (extractColorsFromSvg docAnchorLightBlue).rawBlueCount = 1 :=
  ⟨by decide, by decide, by decide⟩

/-- Claim C3 (amended): when "light blue" reaches the final list
through the disambiguator — i.e. it is absent from the classified set —
then "blue" is present in the final list and at least two raw blue-ish
triples existed.  (Direct classification can also produce "light blue",
without "blue"; see the counterexample.) -/
theorem c3_amended_disambiguator_guard (s : String)
    (h1 : "light blue" ∈ (extractColorsFromSvg s).colors)
    (h2 : "light blue" ∉ classifiedColorsOf s) :
    "blue" ∈ (extractColorsFromSvg s).colors ∧
      2 ≤ (extractColorsFromSvg s).rawBlueCount := by
  have hcolors : (extractColorsFromSvg s).colors =
      stableSort (fun a b => decide (paletteIdx a ≤ paletteIdx b))
        (applyBlueException (classifiedColorsOf s) (rawBluesOf s)) := rfl
  have hperm := stableSort_perm (fun a b => decide (paletteIdx a ≤ paletteIdx b))
    (applyBlueException (classifiedColorsOf s) (rawBluesOf s))
  rw [hcolors] at h1 ⊢
  have h1' := hperm.mem_iff.mp h1
  rcases applyBlueException_cases (classifiedColorsOf s) (rawBluesOf s) with
    heq | ⟨heq, hblue, hlen, -⟩
  · rw [heq] at h1'
    exact absurd h1' h2
  · constructor
    · exact hperm.mem_iff.mpr (by rw [heq]; exact List.mem_append_left _ hblue)
    · exact hlen

/-- Witness for C3 at the two-blue document: "light blue" enters only
through the disambiguator there. -/
theorem c3_witness :
    "light blue" ∈ (extractColorsFromSvg docTwoBlues).colors ∧
    "light blue" ∉ classifiedColorsOf docTwoBlues ∧
    "blue" ∈ (extractColorsFromSvg docTwoBlues).colors ∧
    2 ≤ (extractColorsFromSvg docTwoBlues).rawBlueCount := by
  have h := c3_amended_disambiguator_guard docTwoBlues (by decide) (by decide)
  exact ⟨by decide, by decide, h.1, h.2⟩

/-- Counterexample for C1: the red declared only inside the `defs`
block still reaches the final color list. -/
theorem c1_counterexample :
    "red" ∈ (extractColorsFromSvg docDefsOnly).colors := by decide

/-- Claim C1 (amended): a color declared only inside a non-rendering
container is collected and classified exactly as if it were declared
outside: the container stripping feeds only the default-black
inference.  Concretely, the defs-only document and the same
declaration outside a container produce the same singleton list. -/
theorem c1_amended_defs_colors_counted :
    (extractColorsFromSvg docDefsOnly).colors = ["red"] ∧
    (extractColorsFromSvg docPlainRed).colors = ["red"] :=
  ⟨by decide, by decide⟩

/-- Claim C7: a document whose scans yield no color string, no
inheritable fill, and exactly one shape element lacking both fill and
stroke markers produces exactly the default black. -/
theorem c7_default_black (s : String) (a : String)
    (h1 : colorStringsOf s = [])
    (h2 : hasInheritableFillOf s = false)
    (h3 : shapeAttrsOf s = [a])
    (h4 : shapeLacksPaint a = true) :
    (extractColorsFromSvg s).colors = ["black"] := by
  have hps : parseStep (colorStringsOf s) = ([], []) := by rw [h1]; rfl
  have hcl : classifiedColorsOf s = ["black"] := by
    unfold classifiedColorsOf
    rw [h2, h3, hps]
    simp [h4, insertNew]
  have hraw : rawBluesOf s = [] := by
    unfold rawBluesOf rawColorsOf
    rw [hps]
    rfl
  have hcolors : (extractColorsFromSvg s).colors =
      stableSort (fun a b => decide (paletteIdx a ≤ paletteIdx b))
        (applyBlueException (classifiedColorsOf s) (rawBluesOf s)) := rfl
  rw [hcolors, hcl, hraw]
  decide

/-- Witness for C7 at the bare-shape document. -/
theorem c7_witness :
    colorStringsOf docBareShape = [] ∧
    hasInheritableFillOf docBareShape = false ∧
    shapeAttrsOf docBareShape = [" d=\"M0 0h10v10z\"/"] ∧
    shapeLacksPaint " d=\"M0 0h10v10z\"/" = true ∧
    (extractColorsFromSvg docBareShape).colors = ["black"] :=
  ⟨by decide, by decide, by decide, by decide,
    c7_default_black docBareShape " d=\"M0 0h10v10z\"/"
      (by decide) (by decide) (by decide) (by decide)⟩

/-
Batch driver lemmas.
-/

theorem processFiles_ok (fsys : List (String × Option String)) :
    ∀ (names : List String) (acc : List (String × FlagRecord)),
      (∀ n ∈ names, (lookupContent fsys n).isSome) →
      ∃ recs, processFiles fsys names acc = Except.ok recs ∧
        recs.length = acc.length + names.length
  | [], acc, _ => ⟨acc, rfl, by simp⟩
  | n :: names, acc, h => by
    have hn := h n (List.mem_cons_self _ _)
    match hc : lookupContent fsys n with
    | none => rw [hc] at hn; simp at hn
    | some content =>
      obtain ⟨recs, heq, hlen⟩ := processFiles_ok fsys names
        (acc ++ [(isoOf n,
          ⟨(extractColorsFromSvg content).colors,
           (extractColorsFromSvg content).colors.length,
           (extractColorsFromSvg content).rawColorCount⟩)])
        (fun m hm => h m (List.mem_cons_of_mem _ hm))
      refine ⟨recs, ?_, ?_⟩
      · show processFiles fsys (n :: names) acc = Except.ok recs
        unfold processFiles
        rw [hc]
        exact heq
      · rw [hlen, List.length_append, List.length_cons]
        simp only [List.length_cons, List.length_nil]
        omega

theorem processFiles_err (fsys : List (String × Option String)) :
    ∀ (names : List String) (acc : List (String × FlagRecord)),
      (∃ n ∈ names, lookupContent fsys n = none) →
      ∃ e, processFiles fsys names acc = Except.error e
  | [], _, h => by
    obtain ⟨n, hn, -⟩ := h
    exact absurd hn (List.not_mem_nil n)
  | n :: names, acc, h => by
    match hc : lookupContent fsys n with
    | none =>
      refine ⟨n, ?_⟩
      unfold processFiles
      rw [hc]
    | some content =>
      obtain ⟨m, hm, hmc⟩ := h
      rcases List.mem_cons.mp hm with rfl | hm2
      · rw [hc] at hmc; cases hmc
      · obtain ⟨e, he⟩ := processFiles_err fsys names
          (acc ++ [(isoOf n,
            ⟨(extractColorsFromSvg content).colors,
             (extractColorsFromSvg content).colors.length,
             (extractColorsFromSvg content).rawColorCount⟩)])
          ⟨m, hm2, hmc⟩
        refine ⟨e, ?_⟩
        unfold processFiles
        rw [hc]
        exact he

/-- Counterexample for C2: in a two-file batch whose second file is
unreadable, the run aborts with an error; no aggregate artifact with
N−1 = 1 records is produced. -/
theorem c2_counterexample :
    runBatch batchOneBad = Except.error "bb.svg" := rfl

/-- Claim C2 (amended): the per-file loop has no failure boundary.
When every listed `.svg` file is readable the run completes with one
record per file; when any listed `.svg` file is unreadable the run
aborts with an uncaught error and the aggregate artifact is never
written. -/
theorem c2_amended_batch_aborts (fsys : List (String × Option String)) :
    ((∀ n ∈ svgFilesOf fsys, (lookupContent fsys n).isSome) →
      ∃ recs, runBatch fsys = Except.ok recs ∧
        recs.length = (svgFilesOf fsys).length) ∧
    ((∃ n ∈ svgFilesOf fsys, lookupContent fsys n = none) →
      ∃ e, runBatch fsys = Except.error e) := by
  constructor
  · intro h
    obtain ⟨recs, heq, hlen⟩ := processFiles_ok fsys (svgFilesOf fsys) [] h
    exact ⟨recs, heq, by simpa using hlen⟩
  · intro h
    exact processFiles_err fsys (svgFilesOf fsys) [] h

/-- Witness for C2 on a readable one-file batch and the corrupted
two-file batch. -/
theorem c2_witness :
    (∃ recs, runBatch [("aa.svg", some docPlainRed)] = Except.ok recs ∧
      recs.length = 1) ∧
    (∃ e, runBatch batchOneBad = Except.error e) := by
  constructor
  · obtain ⟨recs, heq, hlen⟩ :=
      (c2_amended_batch_aborts [("aa.svg", some docPlainRed)]).1 (by decide)
    refine ⟨recs, heq, ?_⟩
    rw [hlen]
    decide
  · exact (c2_amended_batch_aborts batchOneBad).2 ⟨"bb.svg", by decide, by decide⟩

/-
Character-level lemmas for the hex-parser equivalence.
-/

theorem toNat_ofNat_small {n : Nat} (h : n < 55296) :
    (Char.ofNat n).toNat = n := by
  rw [Char.ofNat, dif_pos (Or.inl h)]
  rfl

theorem charHexVal?_ranges {c : Char} {v : Nat} (h : charHexVal? c = some v) :
    (48 ≤ c.toNat ∧ c.toNat ≤ 57 ∧ v = c.toNat - 48) ∨
    (97 ≤ c.toNat ∧ c.toNat ≤ 102 ∧ v = c.toNat - 87) ∨
    (65 ≤ c.toNat ∧ c.toNat ≤ 70 ∧ v = c.toNat - 55) := by
  unfold charHexVal? at h
  split_ifs at h with h1 h2 h3
  · cases h; exact Or.inl ⟨h1.1, h1.2, rfl⟩
  · cases h; exact Or.inr (Or.inl ⟨h2.1, h2.2, rfl⟩)
  · cases h; exact Or.inr (Or.inr ⟨h3.1, h3.2, rfl⟩)

theorem hexChar_codes {c : Char} {v : Nat} (h : charHexVal? c = some v) :
    jsIsSpace c = false ∧ c.toNat ≠ 45 ∧ c.toNat ≠ 43 ∧ c.toNat ≠ 120 ∧
      c.toNat ≠ 88 := by
  rcases charHexVal?_ranges h with ⟨h1, h2, -⟩ | ⟨h1, h2, -⟩ | ⟨h1, h2, -⟩ <;>
    exact ⟨by simp [jsIsSpace] <;> omega, by omega, by omega, by omega, by omega⟩

theorem charHexVal?_jsToLower (c : Char) :
    charHexVal? (jsToLower c) = charHexVal? c := by
  unfold jsToLower
  split_ifs with h
  · have hts : (Char.ofNat (c.toNat + 32)).toNat = c.toNat + 32 :=
      toNat_ofNat_small (by omega)
    unfold charHexVal?
    rw [hts]
    split_ifs <;> first | rfl | omega | (congr 1; omega) | (exfalso; omega)
  · rfl

theorem jsTrim_eq_self {l : List Char} (h : ∀ c ∈ l, jsIsSpace c = false) :
    jsTrim l = l := by
  unfold jsTrim
  have h1 : l.dropWhile jsIsSpace = l := by
    cases l with
    | nil => rfl
    | cons a t =>
      rw [List.dropWhile_cons, h a (List.mem_cons_self _ _)]
      simp
  rw [h1]
  cases hr : l.reverse with
  | nil =>
    rw [List.reverse_eq_nil_iff] at hr
    subst hr
    rfl
  | cons b u =>
    have hb : jsIsSpace b = false := by
      refine h b (List.mem_reverse.mp ?_)
      rw [hr]
      exact List.mem_cons_self _ _
    rw [List.dropWhile_cons, hb]
    simp only [Bool.false_eq_true, if_false]
    rw [← hr, List.reverse_reverse]

theorem lookup_eq_none_of_head {β : Type} (l : List (String × β)) (k : String)
    (h : ∀ p ∈ l, p.1.data.head? ≠ k.data.head?) : l.lookup k = none := by
  induction l with
  | nil => rfl
  | cons p t ih =>
    have hne : (k == p.1) = false := by
      rw [beq_eq_false_iff_ne]
      intro he
      exact h p (List.mem_cons_self _ _) (by rw [he])
    simp only [List.lookup, hne]
    exact ih (fun q hq => h q (List.mem_cons_of_mem _ hq))

theorem jsParseIntHex_pair {x y : Char} {vx vy : Nat}
    (hx : charHexVal? x = some vx) (hy : charHexVal? y = some vy) :
    jsParseIntHex [x, y] = some ((vx : Int) * 16 + vy) := by
  obtain ⟨hxs, hx45, hx43, -, -⟩ := hexChar_codes hx
  obtain ⟨hys, -, -, hy120, hy88⟩ := hexChar_codes hy
  simp [jsParseIntHex, List.dropWhile_cons, hxs, hys, hx45, hx43, hy120, hy88,
    List.takeWhile_cons, hx, hy]

theorem parseHex6 {c1 c2 c3 c4 c5 c6 : Char} {v1 v2 v3 v4 v5 v6 : Nat}
    (h1 : charHexVal? c1 = some v1) (h2 : charHexVal? c2 = some v2)
    (h3 : charHexVal? c3 = some v3) (h4 : charHexVal? c4 = some v4)
    (h5 : charHexVal? c5 = some v5) (h6 : charHexVal? c6 = some v6) :
    parseHex ['#', c1, c2, c3, c4, c5, c6] =
      some ⟨(v1 : Int) * 16 + v2, (v3 : Int) * 16 + v4, (v5 : Int) * 16 + v6⟩ := by
  simp [parseHex, removeFirstChar, sublist,
    jsParseIntHex_pair h1 h2, jsParseIntHex_pair h3 h4, jsParseIntHex_pair h5 h6]

theorem parseHex3 {c1 c2 c3 : Char} {v1 v2 v3 : Nat}
    (h1 : charHexVal? c1 = some v1) (h2 : charHexVal? c2 = some v2)
    (h3 : charHexVal? c3 = some v3) :
    parseHex ['#', c1, c2, c3] =
      some ⟨(v1 : Int) * 16 + v1, (v2 : Int) * 16 + v2, (v3 : Int) * 16 + v3⟩ := by
  simp [parseHex, removeFirstChar, expand3, sublist,
    jsParseIntHex_pair h1 h1, jsParseIntHex_pair h2 h2, jsParseIntHex_pair h3 h3]

theorem parseHex4 {c1 c2 c3 c4 : Char} {v1 v2 v3 : Nat}
    (h1 : charHexVal? c1 = some v1) (h2 : charHexVal? c2 = some v2)
    (h3 : charHexVal? c3 = some v3) :
    parseHex ['#', c1, c2, c3, c4] =
      some ⟨(v1 : Int) * 16 + v1, (v2 : Int) * 16 + v2, (v3 : Int) * 16 + v3⟩ := by
  simp [parseHex, removeFirstChar, expand3, sublist,
    jsParseIntHex_pair h1 h1, jsParseIntHex_pair h2 h2, jsParseIntHex_pair h3 h3]

theorem parseHex8 {c1 c2 c3 c4 c5 c6 c7 c8 : Char} {v1 v2 v3 v4 v5 v6 : Nat}
    (h1 : charHexVal? c1 = some v1) (h2 : charHexVal? c2 = some v2)
    (h3 : charHexVal? c3 = some v3) (h4 : charHexVal? c4 = some v4)
    (h5 : charHexVal? c5 = some v5) (h6 : charHexVal? c6 = some v6) :
    parseHex ['#', c1, c2, c3, c4, c5, c6, c7, c8] =
      some ⟨(v1 : Int) * 16 + v2, (v3 : Int) * 16 + v4, (v5 : Int) * 16 + v6⟩ := by
  simp [parseHex, removeFirstChar, sublist,
    jsParseIntHex_pair h1 h2, jsParseIntHex_pair h3 h4, jsParseIntHex_pair h5 h6]

theorem parseColor_mk_hash (ds : List Char)
    (hall : ∀ c ∈ ds, (charHexVal? c).isSome = true) :
    parseColor (String.mk ('#' :: ds)) = parseHex ('#' :: ds.map jsToLower) := by
  have hns : ∀ c ∈ ('#' :: ds), jsIsSpace c = false := by
    intro c hc
    rcases List.mem_cons.mp hc with rfl | hc2
    · decide
    · obtain ⟨v, hv⟩ := Option.isSome_iff_exists.mp (hall c hc2)
      exact (hexChar_codes hv).1
  have hkeys : ∀ p ∈ NAMED_COLORS, p.1.data.head? ≠ some '#' := by decide
  have hlook : NAMED_COLORS.lookup
      (String.mk ('#' :: ds.map jsToLower)) = none := by
    refine lookup_eq_none_of_head _ _ ?_
    intro p hp
    exact hkeys p hp
  have hlow : jsToLower '#' = '#' := by decide
  have hkw : ∀ m : List Char,
      ¬('#' :: m = "none".data ∨ '#' :: m = "transparent".data ∨
        '#' :: m = "inherit".data ∨ '#' :: m = "currentcolor".data) := by
    intro m hcon
    rcases hcon with h | h | h | h <;>
      { have hh := congrArg List.head? h
        simp only [List.head?_cons] at hh
        revert hh
        decide }
  show parseColor ⟨'#' :: ds⟩ = _
  unfold parseColor
  simp only [jsTrim_eq_self hns, List.map_cons, hlow]
  rw [if_neg (hkw _), hlook]
  simp

theorem c6core_hex3 {d1 d2 d3 : Char} {v1 v2 v3 : Nat}
    (h1 : charHexVal? d1 = some v1) (h2 : charHexVal? d2 = some v2)
    (h3 : charHexVal? d3 = some v3) :
    parseColor (String.mk ['#', d1, d2, d3]) =
      parseColor (String.mk ['#', d1, d1, d2, d2, d3, d3]) := by
  have l1 : charHexVal? (jsToLower d1) = some v1 := by
    rw [charHexVal?_jsToLower]; exact h1
  have l2 : charHexVal? (jsToLower d2) = some v2 := by
    rw [charHexVal?_jsToLower]; exact h2
  have l3 : charHexVal? (jsToLower d3) = some v3 := by
    rw [charHexVal?_jsToLower]; exact h3
  rw [parseColor_mk_hash [d1, d2, d3]
    (by intro c hc; simp at hc; rcases hc with rfl | rfl | rfl <;> simp [h1, h2, h3])]
  rw [parseColor_mk_hash [d1, d1, d2, d2, d3, d3]
    (by intro c hc; simp at hc; rcases hc with rfl | rfl | rfl <;> simp [h1, h2, h3])]
  simp only [List.map_cons, List.map_nil]
  rw [parseHex3 l1 l2 l3, parseHex6 l1 l1 l2 l2 l3 l3]

theorem c6core_hex4 {d1 d2 d3 d4 : Char} {v1 v2 v3 v4 : Nat}
    (h1 : charHexVal? d1 = some v1) (h2 : charHexVal? d2 = some v2)
    (h3 : charHexVal? d3 = some v3) (h4 : charHexVal? d4 = some v4) :
    parseColor (String.mk ['#', d1, d2, d3, d4]) =
      parseColor (String.mk ['#', d1, d1, d2, d2, d3, d3]) := by
  have l1 : charHexVal? (jsToLower d1) = some v1 := by
    rw [charHexVal?_jsToLower]; exact h1
  have l2 : charHexVal? (jsToLower d2) = some v2 := by
    rw [charHexVal?_jsToLower]; exact h2
  have l3 : charHexVal? (jsToLower d3) = some v3 := by
    rw [charHexVal?_jsToLower]; exact h3
  rw [parseColor_mk_hash [d1, d2, d3, d4]
    (by intro c hc; simp at hc; rcases hc with rfl | rfl | rfl | rfl <;>
      simp [h1, h2, h3, h4])]
  rw [parseColor_mk_hash [d1, d1, d2, d2, d3, d3]
    (by intro c hc; simp at hc; rcases hc with rfl | rfl | rfl <;> simp [h1, h2, h3])]
  simp only [List.map_cons, List.map_nil]
  rw [parseHex4 l1 l2 l3, parseHex6 l1 l1 l2 l2 l3 l3]

theorem c6core_hex8 {d1 d2 d3 d4 d5 d6 d7 d8 : Char}
    {v1 v2 v3 v4 v5 v6 v7 v8 : Nat}
    (h1 : charHexVal? d1 = some v1) (h2 : charHexVal? d2 = some v2)
    (h3 : charHexVal? d3 = some v3) (h4 : charHexVal? d4 = some v4)
    (h5 : charHexVal? d5 = some v5) (h6 : charHexVal? d6 = some v6)
    (h7 : charHexVal? d7 = some v7) (h8 : charHexVal? d8 = some v8) :
    parseColor (String.mk ['#', d1, d2, d3, d4, d5, d6, d7, d8]) =
      parseColor (String.mk ['#', d1, d2, d3, d4, d5, d6]) := by
  have l1 : charHexVal? (jsToLower d1) = some v1 := by
    rw [charHexVal?_jsToLower]; exact h1
  have l2 : charHexVal? (jsToLower d2) = some v2 := by
    rw [charHexVal?_jsToLower]; exact h2
  have l3 : charHexVal? (jsToLower d3) = some v3 := by
    rw [charHexVal?_jsToLower]; exact h3
  have l4 : charHexVal? (jsToLower d4) = some v4 := by
    rw [charHexVal?_jsToLower]; exact h4
  have l5 : charHexVal? (jsToLower d5) = some v5 := by
    rw [charHexVal?_jsToLower]; exact h5
  have l6 : charHexVal? (jsToLower d6) = some v6 := by
    rw [charHexVal?_jsToLower]; exact h6
  rw [parseColor_mk_hash [d1, d2, d3, d4, d5, d6, d7, d8]
    (by intro c hc; simp at hc
        rcases hc with rfl | rfl | rfl | rfl | rfl | rfl | rfl | rfl <;>
          simp [h1, h2, h3, h4, h5, h6, h7, h8])]
  rw [parseColor_mk_hash [d1, d2, d3, d4, d5, d6]
    (by intro c hc; simp at hc
        rcases hc with rfl | rfl | rfl | rfl | rfl | rfl <;>
          simp [h1, h2, h3, h4, h5, h6])]
  simp only [List.map_cons, List.map_nil]
  rw [parseHex8 l1 l2 l3 l4 l5 l6, parseHex6 l1 l2 l3 l4 l5 l6]

/-- Claim C6: for every valid 3-, 4-, or 8-digit hex color string,
`parseColor` agrees with `parseColor` on the equivalent expanded
6-digit form: single digits are doubled for the 3/4-digit forms, and
the alpha digits of the 4- and 8-digit forms are discarded. -/
theorem c6_parseColor_hex_expansion :
    (∀ d1 d2 d3 v1 v2 v3, charHexVal? d1 = some v1 →
      charHexVal? d2 = some v2 → charHexVal? d3 = some v3 →
      parseColor (String.mk ['#', d1, d2, d3]) =
        parseColor (String.mk ['#', d1, d1, d2, d2, d3, d3])) ∧
    (∀ d1 d2 d3 d4 v1 v2 v3 v4, charHexVal? d1 = some v1 →
      charHexVal? d2 = some v2 → charHexVal? d3 = some v3 →
      charHexVal? d4 = some v4 →
      parseColor (String.mk ['#', d1, d2, d3, d4]) =
        parseColor (String.mk ['#', d1, d1, d2, d2, d3, d3])) ∧
    (∀ d1 d2 d3 d4 d5 d6 d7 d8 v1 v2 v3 v4 v5 v6 v7 v8,
      charHexVal? d1 = some v1 → charHexVal? d2 = some v2 →
      charHexVal? d3 = some v3 → charHexVal? d4 = some v4 →
      charHexVal? d5 = some v5 → charHexVal? d6 = some v6 →
      charHexVal? d7 = some v7 → charHexVal? d8 = some v8 →
      parseColor (String.mk ['#', d1, d2, d3, d4, d5, d6, d7, d8]) =
        parseColor (String.mk ['#', d1, d2, d3, d4, d5, d6])) := by
  refine ⟨?_, ?_, ?_⟩
  · intro d1 d2 d3 v1 v2 v3 h1 h2 h3
    exact c6core_hex3 h1 h2 h3
  · intro d1 d2 d3 d4 v1 v2 v3 v4 h1 h2 h3 h4
    exact c6core_hex4 h1 h2 h3 h4
  · intro d1 d2 d3 d4 d5 d6 d7 d8 v1 v2 v3 v4 v5 v6 v7 v8 h1 h2 h3 h4 h5 h6 h7 h8
    exact c6core_hex8 h1 h2 h3 h4 h5 h6 h7 h8

/-- Witness for C6 on `#a3F`, `#a3F8` and `#12345678`. -/
theorem c6_witness :
    charHexVal? 'a' = some 10 ∧ charHexVal? 'F' = some 15 ∧
    parseColor (String.mk ['#', 'a', '3', 'F']) =
      parseColor (String.mk ['#', 'a', 'a', '3', '3', 'F', 'F']) ∧
    parseColor (String.mk ['#', 'a', '3', 'F', '8']) =
      parseColor (String.mk ['#', 'a', 'a', '3', '3', 'F', 'F']) ∧
    parseColor (String.mk ['#', '1', '2', '3', '4', '5', '6', '7', '8']) =
      parseColor (String.mk ['#', '1', '2', '3', '4', '5', '6']) := by
  refine ⟨by decide, by decide, ?_, ?_, ?_⟩
  · exact c6_parseColor_hex_expansion.1 'a' '3' 'F' 10 3 15
      (by decide) (by decide) (by decide)
  · exact c6_parseColor_hex_expansion.2.1 'a' '3' 'F' '8' 10 3 15 8
      (by decide) (by decide) (by decide) (by decide)
  · exact c6_parseColor_hex_expansion.2.2 '1' '2' '3' '4' '5' '6' '7' '8'
      1 2 3 4 5 6 7 8 (by decide) (by decide) (by decide) (by decide)
      (by decide) (by decide) (by decide) (by decide)

end GeoGrid
